import Mathlib

/-!
Shallow embedding of the wpmm package acquisition and installation pipeline
(src/Package.ts, src/utils/fs.ts, src/utils/commands.ts).

JavaScript strings are modelled as `List Char`; `String.prototype.split(sep)`
for a one-character separator is modelled by `splitOnChar`, and
`Array.prototype.join("/")` by `joinSlash`.
-/

namespace Wpmm

/-- Model of the JavaScript `s.split(sep)` for a single-character separator:
`"".split("/") = [""]`, `"a/x".split("/") = ["a","x"]`, `"/".split("/") = ["",""]`. -/
def splitOnChar (sep : Char) : List Char → List (List Char)
  | [] => [[]]
  | c :: cs =>
    if c = sep then [] :: splitOnChar sep cs
    else ((c :: (splitOnChar sep cs).headD []) :: (splitOnChar sep cs).tail)

/-- Model of the JavaScript `arr.join("/")` on a list of path segments. -/
def joinSlash : List (List Char) → List Char
  | [] => []
  | [s] => s
  | s :: t :: rest => s ++ '/' :: joinSlash (t :: rest)

/-- The loop body of `extractZip`'s `onEntry` update: the least index `i`
(`i < parts.length`) at which `candParts[i]` (JS `undefined` when out of
bounds) differs from `parts[i]`; `none` when the loop finds no divergence. -/
def firstDiv : List (List Char) → List (List Char) → Option Nat
  | _, [] => none
  | [], _ :: _ => some 0
  | c :: cs, p :: ps =>
    if c = p then (firstDiv cs ps).map (fun i => i + 1) else some 0

/-- One `onEntry` callback of `extractZip` (src/utils/fs.ts): if the running
`commonRootPath` is empty (JS falsy) it is initialised from the entry's first
path segment; otherwise it is truncated at the first point of divergence from
the entry's path segments. -/
def updateRoot (cand : List Char) (fileName : List Char) : List Char :=
  if cand = [] then (splitOnChar '/' fileName).headD []
  else
    match firstDiv (splitOnChar '/' cand) (splitOnChar '/' fileName) with
    | none => cand
    | some i => joinSlash ((splitOnChar '/' cand).take i)

/-- The `commonRootPath` value returned by `extractZip` after its `onEntry`
callback has run over every archive entry name, in archive order, starting
from the empty string. -/
def extractZipRoot (entryNames : List (List Char)) : List Char :=
  entryNames.foldl updateRoot []

lemma splitOnChar_ne_nil (sep : Char) (s : List Char) : splitOnChar sep s ≠ [] := by
  cases s with
  | nil => simp [splitOnChar]
  | cons c cs =>
    simp only [splitOnChar]
    split <;> simp

lemma mem_splitOnChar (sep : Char) (s : List Char) (t : List Char)
    (ht : t ∈ splitOnChar sep s) : sep ∉ t := by
  induction s generalizing t with
  | nil =>
    simp [splitOnChar] at ht
    subst ht
    simp
  | cons c cs ih =>
    simp only [splitOnChar] at ht
    by_cases h : c = sep
    · rw [if_pos h] at ht
      rcases List.mem_cons.mp ht with rfl | ht
      · simp
      · exact ih t ht
    · rw [if_neg h] at ht
      rcases List.mem_cons.mp ht with rfl | ht
      · intro hm
        rcases List.mem_cons.mp hm with hc | hm
        · exact h hc.symm
        · cases hh : splitOnChar sep cs with
          | nil => exact absurd hh (splitOnChar_ne_nil sep cs)
          | cons a as =>
            rw [hh] at hm
            simp only [List.headD_cons] at hm
            exact ih a (by rw [hh]; exact List.mem_cons_self a as) hm
      · cases hh : splitOnChar sep cs with
        | nil => exact absurd hh (splitOnChar_ne_nil sep cs)
        | cons a as =>
          rw [hh] at ht
          simp only [List.tail_cons] at ht
          exact ih t (by rw [hh]; exact List.mem_cons_of_mem a ht)

lemma splitOnChar_no_sep (sep : Char) (s : List Char) (h : sep ∉ s) :
    splitOnChar sep s = [s] := by
  induction s with
  | nil => rfl
  | cons c cs ih =>
    simp only [List.mem_cons, not_or] at h
    have hne : ¬ c = sep := fun hc => h.1 hc.symm
    simp [splitOnChar, hne, ih h.2]

lemma updateRoot_no_slash (cand e : List Char) (h : '/' ∉ cand) :
    '/' ∉ updateRoot cand e := by
  unfold updateRoot
  by_cases hc : cand = []
  · rw [if_pos hc]
    cases hh : splitOnChar '/' e with
    | nil => exact absurd hh (splitOnChar_ne_nil '/' e)
    | cons a as =>
      simp only [List.headD_cons]
      exact mem_splitOnChar '/' e a (by rw [hh]; exact List.mem_cons_self a as)
  · rw [if_neg hc, splitOnChar_no_sep '/' cand h]
    cases hfd : firstDiv [cand] (splitOnChar '/' e) with
    | none => exact h
    | some i =>
      cases i with
      | zero => simp [joinSlash]
      | succ n =>
        simp only [List.take_succ_cons, List.take_nil]
        simpa [joinSlash] using h

lemma foldl_updateRoot_no_slash (es : List (List Char)) :
    ∀ cand : List Char, '/' ∉ cand → '/' ∉ es.foldl updateRoot cand := by
  induction es with
  | nil => intro cand h; simpa using h
  | cons e es ih => intro cand h; exact ih (updateRoot cand e) (updateRoot_no_slash cand e h)

/-- C10: for every archive, the `commonRootPath` returned by `extractZip` never
contains a path separator — it is either the empty string or a single path
segment, because the candidate is initialised from one top segment and every
later update either truncates it or re-initialises it to one segment. -/
theorem c10_extract_root_single_segment (entryNames : List (List Char)) :
    '/' ∉ extractZipRoot entryNames :=
  foldl_updateRoot_no_slash entryNames [] (by simp)

/-- C2: evaluating `extractZip`'s common-root fold at the archive with entries
`a/x`, `b/y`, `c/z` — which share no common top segment — yields `"c"` rather
than the empty string: after `b/y` empties the candidate, the JS falsy check
`if (!commonRootPath)` re-initialises it from the next entry's top segment. -/
theorem c2_common_root_reseeded_after_collapse :
    extractZipRoot ["a/x".toList, "b/y".toList, "c/z".toList] = "c".toList ∧
    "c".toList ≠ ([] : List Char) := by
  constructor
  · rfl
  · decide

/-- One HTTP response as observed by `downloadFile`'s `https.get` callback:
status code (JS `response.statusCode ?? 0`), optional `Location` header, the
status message, and the response body that would be streamed to the target. -/
structure JsResponse where
  statusCode : Nat
  location : Option (List Char)
  statusMessage : List Char
  body : List Char
deriving DecidableEq

/-- Outcome of one `downloadFile` promise: skipped because the target file
already existed, resolved after streaming a body, rejected with an error
message, or still pending (the modelled response trace ran out while the code
would issue yet another request). -/
inductive FetchResult where
  | skipped
  | success (body : List Char)
  | failure (msg : List Char)
  | pending
deriving DecidableEq

/-- Result of running the network part of `downloadFile`: the fetch outcome
together with the number of HTTP requests actually issued. -/
structure FetchRun where
  result : FetchResult
  requests : Nat
deriving DecidableEq

/-- JS truthiness of `response.headers.location` (`!!location`): present and
non-empty. -/
def truthy : Option (List Char) → Bool
  | none => false
  | some s => !s.isEmpty

/-- The recursive network loop of `downloadFile` (src/utils/fs.ts): each
recursive self-invocation issues one `https.get`, modelled by consuming the
next response of the trace. `code >= 400` rejects with the status message;
`code > 300 && code < 400 && !!location` re-invokes `downloadFile` on the
`Location` target (the next response of the trace); anything else streams the
response body to the target file and resolves. -/
def fetchLoop : List JsResponse → FetchRun
  | [] => ⟨.pending, 0⟩
  | r :: rest =>
    if 400 ≤ r.statusCode then ⟨.failure r.statusMessage, 1⟩
    else if 300 < r.statusCode ∧ r.statusCode < 400 ∧ truthy r.location = true then
      ⟨(fetchLoop rest).result, (fetchLoop rest).requests + 1⟩
    else ⟨.success r.body, 1⟩

/-- Model of `downloadFile(url, targetFile)`: if `targetFile` already exists the call is
a no-op; otherwise the network loop runs. Returns the fetch outcome and
whether `targetFile` exists afterwards (it is created exactly when a body was
streamed; a rejected or pending fetch leaves no file). -/
def isFetchSuccess : FetchResult → Bool
  | .success _ => true
  | _ => false

def downloadFile (targetExists : Bool) (responses : List JsResponse) :
    FetchRun × Bool :=
  if targetExists then (⟨.skipped, 0⟩, true)
  else (fetchLoop responses, isFetchSuccess (fetchLoop responses).result)

lemma fetchLoop_redirect_step (r : JsResponse) (rest : List JsResponse)
    (h1 : 300 < r.statusCode) (h2 : r.statusCode < 400)
    (h3 : truthy r.location = true) :
    fetchLoop (r :: rest) = ⟨(fetchLoop rest).result, (fetchLoop rest).requests + 1⟩ := by
  have h4 : ¬ 400 ≤ r.statusCode := by omega
  simp [fetchLoop, h1, h2, h3, h4]

/-- A permanent-redirect response used to build redirect chains. -/
def redirectResp : JsResponse :=
  ⟨301, some "https://example.test/next".toList, "Moved Permanently".toList, []⟩

/-- A terminal 200 response carrying the real payload. -/
def okResp : JsResponse := ⟨200, none, "OK".toList, "payload".toList⟩

/-- A response trace of `n` consecutive redirects followed by a 200. -/
def redirectChain (n : Nat) : List JsResponse :=
  List.replicate n redirectResp ++ [okResp]

lemma fetchLoop_redirectChain (n : Nat) :
    fetchLoop (redirectChain n) = ⟨.success "payload".toList, n + 1⟩ := by
  induction n with
  | zero => rfl
  | succ n ih =>
    have hstep : redirectChain (n + 1) = redirectResp :: redirectChain n := by
      simp [redirectChain, List.replicate_succ]
    rw [hstep, fetchLoop_redirect_step redirectResp (redirectChain n) (by decide) (by decide) (by decide), ih]

/-- Whether a fetch outcome is a rejection. -/
def isFetchFailure : FetchResult → Bool
  | .failure _ => true
  | _ => false

/-- C3 counterexample: a status-300 response carrying a `Location` header is
not redirected by `downloadFile` — the guard is `code > 300`, strictly — so
the body of the 300 response itself is streamed to `targetFile` with a single
request, not the body of the `Location` target. -/
theorem c3_counterexample_status_300_not_redirected :
    (fetchLoop [⟨300, some "https://example.test/real.zip".toList,
        "Multiple Choices".toList, "choices-page".toList⟩,
      ⟨200, none, "OK".toList, "real-zip-bytes".toList⟩]).result
        = .success "choices-page".toList ∧
    (fetchLoop [⟨300, some "https://example.test/real.zip".toList,
        "Multiple Choices".toList, "choices-page".toList⟩,
      ⟨200, none, "OK".toList, "real-zip-bytes".toList⟩]).requests = 1 ∧
    FetchResult.success "choices-page".toList
        ≠ FetchResult.success "real-zip-bytes".toList := by
  refine ⟨rfl, rfl, ?_⟩
  decide

/-- C3 (amended): for every response whose status code lies strictly between
300 and 400 and which carries a non-empty `Location` header, `downloadFile`
recursively re-invokes itself against the `Location` target (consuming the
next response of the trace, writing to the same target file), at the cost of
one extra request; status 300 itself is excluded by the `code > 300` guard. -/
theorem c3_redirect_reinvokes_strictly_above_300 (r : JsResponse)
    (rest : List JsResponse) (h1 : 300 < r.statusCode) (h2 : r.statusCode < 400)
    (h3 : truthy r.location = true) :
    fetchLoop (r :: rest) = ⟨(fetchLoop rest).result, (fetchLoop rest).requests + 1⟩ :=
  fetchLoop_redirect_step r rest h1 h2 h3

/-- Witness for C3: a 301 with a `Location` header followed by a 200 streams
the 200 body after two requests. -/
theorem c3_redirect_reinvokes_strictly_above_300_witness :
    fetchLoop [redirectResp, okResp] = ⟨.success "payload".toList, 2⟩ :=
  (c3_redirect_reinvokes_strictly_above_300 redirectResp [okResp]
    (by decide) (by decide) (by decide)).trans (by rfl)

/-- C4 counterexample: there is no redirect bound `B` past which `downloadFile`
fails — for every `n`, a chain of `n` redirects ending in a 200 resolves
successfully, so no chain length ever produces an error. -/
theorem c4_counterexample_no_redirect_bound :
    ¬ ∃ B : Nat, ∀ n : Nat, B < n →
      isFetchFailure (fetchLoop (redirectChain n)).result = true := by
  rintro ⟨B, hB⟩
  have h := hB (B + 1) (by omega)
  rw [fetchLoop_redirectChain (B + 1)] at h
  simp [isFetchFailure] at h

/-- C4 (amended): `downloadFile` imposes no maximum redirect count — it follows
a redirect chain of every finite length `n`, issuing `n + 1` requests and
resolving with the terminal payload; nothing in the code bounds the naive
recursion. -/
theorem c4_redirects_followed_unboundedly (n : Nat) :
    (fetchLoop (redirectChain n)).result = .success "payload".toList ∧
    (fetchLoop (redirectChain n)).requests = n + 1 := by
  rw [fetchLoop_redirectChain n]
  exact ⟨rfl, rfl⟩

/-- C8 counterexample: against a server answering 404, the first
`downloadFile` call rejects and leaves no target file, so the second call with
the same arguments is not a no-op success — it issues a second network request
and rejects again, for two requests in total. -/
theorem c8_counterexample_failed_first_call_retries :
    (downloadFile false [⟨404, none, "Not Found".toList, []⟩]).2 = false ∧
    (downloadFile (downloadFile false [⟨404, none, "Not Found".toList, []⟩]).2
      [⟨404, none, "Not Found".toList, []⟩]).1.requests = 1 ∧
    (downloadFile false [⟨404, none, "Not Found".toList, []⟩]).1.requests
      + (downloadFile (downloadFile false [⟨404, none, "Not Found".toList, []⟩]).2
          [⟨404, none, "Not Found".toList, []⟩]).1.requests = 2 ∧
    (downloadFile (downloadFile false [⟨404, none, "Not Found".toList, []⟩]).2
      [⟨404, none, "Not Found".toList, []⟩]).1.result ≠ .skipped := by
  refine ⟨rfl, rfl, rfl, ?_⟩
  decide

/-- C8 (amended): when the first `downloadFile` call succeeds in streaming a
body, the target file is on disk, so the second call with the same arguments
is a no-op success that issues zero network requests; idempotency holds only
by local-file presence, so a failed first call is retried instead. -/
theorem c8_second_call_noop_after_success (rs : List JsResponse) (b : List Char)
    (h : (downloadFile false rs).1.result = .success b) :
    downloadFile (downloadFile false rs).2 rs = (⟨.skipped, 0⟩, true) := by
  have hf : (fetchLoop rs).result = FetchResult.success b := h
  have h2 : (downloadFile false rs).2 = true := by
    have hd : (downloadFile false rs).2 = isFetchSuccess (fetchLoop rs).result := rfl
    rw [hd, hf]
    rfl
  rw [h2]
  rfl

/-- Witness for C8: after a successful 200 download, the repeated call is the
skipped no-op. -/
theorem c8_second_call_noop_after_success_witness :
    downloadFile (downloadFile false [okResp]).2 [okResp] = (⟨.skipped, 0⟩, true) :=
  c8_second_call_noop_after_success [okResp] "payload".toList (by rfl)

/-- Manifest files present in a package directory, as probed by
`fs.existsSync` in src/utils/commands.ts. -/
structure DirState where
  hasPackageJson : Bool
  hasPackageLock : Bool
  hasComposerJson : Bool
deriving DecidableEq

/-- The build-tool subprocess commands the pipeline can spawn. -/
inductive Cmd where
  | npmInstallAndBuild
  | npmCiAndBuild
  | composerInstallNoDev
  | composerDumpAutoload
deriving DecidableEq

/-- Model of `installNpmPackages(packageDirectory)` (src/utils/commands.ts): a no-op
when `package.json` is absent; otherwise runs `npm ci && npm run build` when a
`package-lock.json` is present and `npm i && npm run build` otherwise.
Returns the commands spawned and whether the returned promise rejected
(`exec` reported a non-zero exit). -/
def installNpmPackages (d : DirState) (npmExitNonZero : Bool) : List Cmd × Bool :=
  if !d.hasPackageJson then ([], false)
  else if d.hasPackageLock then ([Cmd.npmCiAndBuild], npmExitNonZero)
  else ([Cmd.npmInstallAndBuild], npmExitNonZero)

/-- Model of `installComposer(repoPath)` (src/utils/commands.ts): spawns
`composer install --no-dev` and `composer dumpautoload -o` unconditionally —
the body contains no `existsSync` probe of `composer.json` (the `repoPath`
argument only sets the subprocess working directory), and the fire-and-forget
`exec` calls never reject. -/
def installComposer : List Cmd :=
  [Cmd.composerInstallNoDev, Cmd.composerDumpAutoload]

/-- Model of the git-suffix test in `Package.downloadPackage`: the final dot-segment of the URL equals `git`. -/
def isGitUrl (url : List Char) : Bool :=
  (splitOnChar '.' url).getLastD [] == "git".toList

/-- The abstract filesystem state one package installation reads and writes:
whether `destFolder/name` exists, whether the downloaded zip
`tempDir/name.zip` exists, which extraction root is currently staged in the
temp directory, and whether the temp directory itself still exists (the
degenerate rename moves it away wholesale). -/
structure World where
  pkgFolderExists : Bool
  zipExists : Bool
  stagingRoot : Option (List Char)
  tempDirExists : Bool
deriving DecidableEq

/-- The deterministic environment of one package installation: the explicit
`source` of the descriptor, the URL `getDownloadUrl` would derive
(src/utils/data.ts is outside src/; spec section 4.1 makes the derivation a
pure total function, so it is abstracted as this oracle), the HTTP response
trace the server answers, the archive entry list (or the extraction error),
and the behaviour of the clone and npm subprocesses plus the placed package's
manifest files. -/
structure Env where
  source : Option (List Char)
  derivedUrl : List Char
  netResponses : List JsResponse
  extractEntries : Except (List Char) (List (List Char))
  cloneFails : Bool
  npmExitNonZero : Bool
  dirState : DirState

/-- Model of the URL resolution `source || getDownloadUrl(name, version, this.packageType)` in
`Package.install`: an absent or empty (JS falsy) explicit source falls back to
the derived URL. -/
def resolvedUrl (env : Env) : List Char :=
  match env.source with
  | some s => if s.isEmpty then env.derivedUrl else s
  | none => env.derivedUrl

/-- Observable side effects of one `downloadPackage` run, in order. -/
inductive Action where
  | download
  | clone
  | extractArchive
  | renameF (root : List Char)
  | run (c : Cmd)
deriving DecidableEq

/-- What one `downloadPackage` call produces: the filesystem state afterwards,
the side effects performed, the error its catch-all `catch` block swallowed
and logged (the promise itself resolves in every settled case), and whether
the promise never settles (a fetch that hangs). -/
structure DPResult where
  world : World
  actions : List Action
  swallowed : Option (List Char)
  hung : Bool
deriving DecidableEq

/-- The tail of `Package.downloadPackage` after a successful placement: the
success log, then — `packageUrl` being truthy — `await installNpmPackages`
followed by `installComposer`. A rejected npm step is caught by the
surrounding catch block, so `installComposer` is skipped and the error is
logged; the world is never touched by either build step. -/
def postInstall (env : Env) (w : World) (acts : List Action) : DPResult :=
  if (resolvedUrl env).isEmpty then ⟨w, acts, none, false⟩
  else if (installNpmPackages env.dirState env.npmExitNonZero).2 then
    ⟨w, acts ++ (installNpmPackages env.dirState env.npmExitNonZero).1.map Action.run,
      some "npm exit nonzero".toList, false⟩
  else
    ⟨w, acts ++ (installNpmPackages env.dirState env.npmExitNonZero).1.map Action.run
        ++ installComposer.map Action.run, none, false⟩

/-- Model of `Package.downloadPackage(packageUrl)` (src/Package.ts): skip if
`destFolder/name` exists; clone when the URL's final dot-segment is `git`;
otherwise download the archive (skipping an existing zip), extract it, and
rename `path.join(tempDir, extractedPath)` onto `destFolder/name` — for an
empty extraction root that source path IS the temp directory, which is moved
wholesale (taking the zip with it). Every raised error is swallowed by the
catch-all and merely logged; the promise still resolves. -/
def downloadPackage (env : Env) (w : World) : DPResult :=
  if w.pkgFolderExists then ⟨w, [], none, false⟩
  else if isGitUrl (resolvedUrl env) then
    if env.cloneFails then ⟨w, [Action.clone], some "clone failed".toList, false⟩
    else postInstall env ⟨true, w.zipExists, w.stagingRoot, w.tempDirExists⟩ [Action.clone]
  else
    let dl := (downloadFile w.zipExists env.netResponses).1
    let dlActs := List.replicate dl.requests Action.download
    match dl.result with
    | .failure msg => ⟨w, dlActs, some msg, false⟩
    | .pending => ⟨w, dlActs, none, true⟩
    | _ =>
      match env.extractEntries with
      | .error e =>
        ⟨⟨w.pkgFolderExists, true, w.stagingRoot, w.tempDirExists⟩,
          dlActs ++ [Action.extractArchive], some e, false⟩
      | .ok entries =>
        let root := extractZipRoot entries
        if root.isEmpty then
          postInstall env ⟨true, false, none, false⟩
            (dlActs ++ [Action.extractArchive, Action.renameF root])
        else
          postInstall env ⟨true, true, none, w.tempDirExists⟩
            (dlActs ++ [Action.extractArchive, Action.renameF root])

/-- What one `Package.install` call produces: `install` awaits
`downloadPackage` — which never rejects — and then unconditionally logs the
`installed successfully` message, so the success log is printed whenever the
download promise settles. -/
structure InstallResult where
  world : World
  actions : List Action
  swallowed : Option (List Char)
  successLogged : Bool
deriving DecidableEq

/-- Model of `Package.install()` (src/Package.ts). -/
def install (env : Env) (w : World) : InstallResult :=
  ⟨(downloadPackage env w).world, (downloadPackage env w).actions,
    (downloadPackage env w).swallowed, !(downloadPackage env w).hung⟩

/-- A fresh filesystem: no destination folder, no zip, nothing staged. -/
def w0 : World := ⟨false, false, none, true⟩

/-- An archive-sourced installation whose only server answer is a 404. -/
def env404 : Env :=
  ⟨some "https://example.test/p.zip".toList, [],
    [⟨404, none, "Not Found".toList, []⟩], .error [], false, false,
    ⟨false, false, false⟩⟩

/-- C1: the transport error raised while installing from `env404` is swallowed
by `downloadPackage`'s catch-all: the package's promise resolves, `install`
still prints its success log, and no failure outcome reaches the caller even
though the package was never placed. -/
theorem c1_error_swallowed_install_resolves_success :
    (install env404 w0).successLogged = true ∧
    (install env404 w0).swallowed = some "Not Found".toList ∧
    (install env404 w0).world.pkgFolderExists = false := by
  refine ⟨rfl, rfl, rfl⟩

/-- An archive-sourced installation whose archive entries `a/x`, `b/y` share
no common top segment, so extraction reports an empty common root. -/
def envDegenerate : Env :=
  ⟨some "https://example.test/pkg.zip".toList, [],
    [⟨200, none, "OK".toList, "zipbytes".toList⟩],
    .ok ["a/x".toList, "b/y".toList], false, false, ⟨false, false, false⟩⟩

/-- C5: with an empty common root, `downloadPackage` raises no
`PlacementError` — `path.join(tempDir, '')` is the temp directory itself, so
the rename IS performed with the whole temp directory as its source, which
moves it (zip included) onto `destFolder/name` and reports success. -/
theorem c5_degenerate_root_renames_whole_tempdir :
    Action.renameF [] ∈ (downloadPackage envDegenerate w0).actions ∧
    (downloadPackage envDegenerate w0).world.pkgFolderExists = true ∧
    (downloadPackage envDegenerate w0).world.tempDirExists = false ∧
    (downloadPackage envDegenerate w0).swallowed = none := by
  refine ⟨by decide, rfl, rfl, rfl⟩

/-- An archive-sourced installation of a package that carries no manifest
files at all (no package.json, no package-lock.json, no composer.json). -/
def envNoManifests : Env :=
  ⟨some "https://example.test/pkg.zip".toList, [],
    [⟨200, none, "OK".toList, "zipbytes".toList⟩],
    .ok ["pkgroot/readme.txt".toList, "pkgroot/index.php".toList],
    false, false, ⟨false, false, false⟩⟩

/-- C6: for a placed package directory lacking every manifest, the npm steps
are skipped (package.json is probed) but the composer steps are still spawned:
`installComposer` contains no manifest check, and `downloadPackage` calls it
unconditionally after placement. -/
theorem c6_composer_runs_without_manifest :
    Action.run Cmd.composerInstallNoDev ∈ (downloadPackage envNoManifests w0).actions ∧
    Action.run Cmd.composerDumpAutoload ∈ (downloadPackage envNoManifests w0).actions ∧
    envNoManifests.dirState.hasComposerJson = false ∧
    Action.run Cmd.npmInstallAndBuild ∉ (downloadPackage envNoManifests w0).actions ∧
    Action.run Cmd.npmCiAndBuild ∉ (downloadPackage envNoManifests w0).actions ∧
    installComposer = [Cmd.composerInstallNoDev, Cmd.composerDumpAutoload] := by
  refine ⟨by decide, by decide, rfl, by decide, by decide, rfl⟩

lemma postInstall_world (env : Env) (w : World) (acts : List Action) :
    (postInstall env w acts).world = w := by
  unfold postInstall
  split
  · rfl
  · split <;> rfl

lemma postInstall_hung (env : Env) (w : World) (acts : List Action) :
    (postInstall env w acts).hung = false := by
  unfold postInstall
  split
  · rfl
  · split <;> rfl

lemma downloadPackage_world (env : Env) (w : World) :
    (downloadPackage env w).world =
      (if w.pkgFolderExists then w
       else if isGitUrl (resolvedUrl env) then
         (if env.cloneFails then w
          else ⟨true, w.zipExists, w.stagingRoot, w.tempDirExists⟩)
       else
         match (downloadFile w.zipExists env.netResponses).1.result with
         | .failure _ => w
         | .pending => w
         | _ =>
           match env.extractEntries with
           | .error _ => ⟨w.pkgFolderExists, true, w.stagingRoot, w.tempDirExists⟩
           | .ok entries =>
             if (extractZipRoot entries).isEmpty then ⟨true, false, none, false⟩
             else ⟨true, true, none, w.tempDirExists⟩) := by
  simp only [downloadPackage]
  split
  · rfl
  · split
    · split
      · rfl
      · exact postInstall_world ..
    · split
      · rfl
      · rfl
      · split
        · rfl
        · split
          · exact postInstall_world ..
          · exact postInstall_world ..

lemma downloadPackage_hung (env : Env) (w : World) :
    (downloadPackage env w).hung =
      (if w.pkgFolderExists then false
       else if isGitUrl (resolvedUrl env) then false
       else
         match (downloadFile w.zipExists env.netResponses).1.result with
         | .pending => true
         | _ => false) := by
  by_cases hp : w.pkgFolderExists = true
  · simp [downloadPackage, hp]
  · by_cases hg : isGitUrl (resolvedUrl env) = true
    · by_cases hc : env.cloneFails = true
      · simp [downloadPackage, hp, hg, hc]
      · simp [downloadPackage, hp, hg, hc, postInstall_hung]
    · cases hres : (downloadFile w.zipExists env.netResponses).1.result with
      | failure msg => simp [downloadPackage, hp, hg, hres]
      | pending => simp [downloadPackage, hp, hg, hres]
      | skipped =>
        cases hee : env.extractEntries with
        | error e => simp [downloadPackage, hp, hg, hres, hee]
        | ok entries =>
          by_cases hroot : extractZipRoot entries = []
          · simp [downloadPackage, hp, hg, hres, hee, hroot, postInstall_hung]
          · simp [downloadPackage, hp, hg, hres, hee, hroot, postInstall_hung]
      | success b =>
        cases hee : env.extractEntries with
        | error e => simp [downloadPackage, hp, hg, hres, hee]
        | ok entries =>
          by_cases hroot : extractZipRoot entries = []
          · simp [downloadPackage, hp, hg, hres, hee, hroot, postInstall_hung]
          · simp [downloadPackage, hp, hg, hres, hee, hroot, postInstall_hung]

/-- C7: `install` is idempotent — for every environment and filesystem state,
a second `install` with the same arguments leaves the filesystem exactly where
the first left it, and whenever `destFolder/name` already exists the call
performs no clone, no download, no extraction and no rename at all (it is the
skip branch, resolving successfully with no side effect). -/
theorem c7_install_idempotent :
    (∀ env : Env, ∀ w : World,
      (install env (install env w).world).world = (install env w).world) ∧
    (∀ env : Env, ∀ w : World, w.pkgFolderExists = true →
      install env w = ⟨w, [], none, true⟩) := by
  constructor
  · intro env w
    show (downloadPackage env (downloadPackage env w).world).world
        = (downloadPackage env w).world
    rw [downloadPackage_world env (downloadPackage env w).world,
      downloadPackage_world env w]
    by_cases hp : w.pkgFolderExists = true
    · simp [hp]
    · by_cases hg : isGitUrl (resolvedUrl env) = true
      · by_cases hc : env.cloneFails = true
        · simp [hp, hg, hc]
        · simp [hp, hg, hc]
      · cases hres : (downloadFile w.zipExists env.netResponses).1.result with
        | failure msg => simp [hp, hg, hres]
        | pending => simp [hp, hg, hres]
        | skipped =>
          cases hee : env.extractEntries with
          | error e => simp [hp, hg, hres, hee, downloadFile]
          | ok entries =>
            by_cases hroot : (extractZipRoot entries).isEmpty = true
            · simp [hp, hg, hres, hee, hroot]
            · simp [hp, hg, hres, hee, hroot]
        | success b =>
          cases hee : env.extractEntries with
          | error e => simp [hp, hg, hres, hee, downloadFile]
          | ok entries =>
            by_cases hroot : (extractZipRoot entries).isEmpty = true
            · simp [hp, hg, hres, hee, hroot]
            · simp [hp, hg, hres, hee, hroot]
  · intro env w h
    show install env w = ⟨w, [], none, true⟩
    unfold install downloadPackage
    rw [if_pos h]
    rfl

/-- Witness for C7: on a state whose destination folder already exists, the
call is the pure skip, and a full archive install followed by a repeat leaves
the filesystem unchanged. -/
theorem c7_install_idempotent_witness :
    install envNoManifests ⟨true, false, none, true⟩
        = ⟨⟨true, false, none, true⟩, [], none, true⟩ ∧
    (install envNoManifests (install envNoManifests w0).world).world
        = (install envNoManifests w0).world :=
  ⟨c7_install_idempotent.2 envNoManifests ⟨true, false, none, true⟩ rfl,
    c7_install_idempotent.1 envNoManifests w0⟩

/-- The environment `env` with its npm build outcome replaced by `b`. -/
def envWithNpm (env : Env) (b : Bool) : Env :=
  ⟨env.source, env.derivedUrl, env.netResponses, env.extractEntries,
    env.cloneFails, b, env.dirState⟩

/-- A fully successful archive installation of a package that has a
`package.json` but whose npm build exits non-zero. -/
def envNpmFail : Env :=
  ⟨some "https://example.test/pkg.zip".toList, [],
    [⟨200, none, "OK".toList, "zipbytes".toList⟩],
    .ok ["pkgroot/package.json".toList, "pkgroot/index.js".toList],
    false, true, ⟨true, false, false⟩⟩

/-- C9: a build-tool subprocess exiting non-zero never aborts the
installation: the npm outcome has no effect on the resulting filesystem state
or on whether the pipeline settles, and in a concrete failing-build run the
package's files stay placed, `install` still completes with its success log,
and the build failure is only reported through the logged (swallowed) error. -/
theorem c9_build_failure_nonfatal :
    (∀ env : Env, ∀ w : World, ∀ b : Bool,
      (downloadPackage (envWithNpm env b) w).world = (downloadPackage env w).world ∧
      (downloadPackage (envWithNpm env b) w).hung = (downloadPackage env w).hung) ∧
    ((downloadPackage envNpmFail w0).world.pkgFolderExists = true ∧
     Action.renameF "pkgroot".toList ∈ (downloadPackage envNpmFail w0).actions ∧
     (install envNpmFail w0).successLogged = true ∧
     (downloadPackage envNpmFail w0).swallowed = some "npm exit nonzero".toList) := by
  refine ⟨fun env w b => ⟨?_, ?_⟩, rfl, by decide, rfl, rfl⟩
  · rw [downloadPackage_world, downloadPackage_world]
    rfl
  · rw [downloadPackage_hung, downloadPackage_hung]
    rfl

end Wpmm
